import Mathlib

/-!
Shallow embedding of the two processing plugins of salt-analytics-framework:

* src/saf/process/state_aggregate.py — the simple variant: watches new state
  jobs (fun == "state.apply") and emits one aggregated record per job return
  of a watched jid. The registry never removes entries.
* src/saf/process/job_aggregate.py — the enrichment-aware variant: tracks the
  set of minions expected to return per jid, removes the jid once all minions
  returned, and attaches grains (enrichment data) to each record, deferring
  emission in waiting_for_grains until grains for the minion are known.

Python dicts are modelled as insertion-ordered association lists, Python sets
of strings as Finset String, and the Python set waiting_for_grains (a set of
distinct record objects, identity-hashed) as a list in insertion order; no
claim below relies on the iteration order of that set. The KeyError that
set.remove raises on a missing element is modelled with Except. Timestamps
are integers and durations their difference, mirroring datetime arithmetic.
-/

namespace SaltAnalytics

/-- An attribute map (a Python dict of str to str): association list in insertion order. -/
abbrev Attrs := List (String × String)

/-- The payload dict of a salt event, restricted to the fields the plugins
read: data.get("fun") and data["minions"]. Records carry the payload whole. -/
structure EventData where
  jobFun : Option String
  minions : List String
deriving DecidableEq, Repr

/-- A salt event: tag string, payload and timestamp (salt_event.stamp). -/
structure SaltEvent where
  tag : String
  data : EventData
  stamp : Int
deriving DecidableEq, Repr

/-- The input union of the process functions: EventBusCollectedEvent,
GrainsCollectedEvent (with fields minion, grains), or any other event. -/
inductive CollectedEvent where
  | eventBus (salt_event : SaltEvent)
  | grainsCollected (minion : String) (grains : Attrs)
  | otherEvent
deriving DecidableEq, Repr

/-- A Python dict with string keys: insertion-ordered association list with
unique keys (unique by construction from an empty dict via insert/pop). -/
abbrev Dict (α : Type) := List (String × α)

/-- d[k] lookup (as d.get(k)): first binding of k. -/
def Dict.get? {α : Type} : Dict α → String → Option α
  | [], _ => none
  | (k', v) :: rest, k => if k' = k then some v else Dict.get? rest k

/-- d[k] = v: replace the binding in place if k is present, else append. -/
def Dict.insert {α : Type} : Dict α → String → α → Dict α
  | [], k, v => [(k, v)]
  | (k', v') :: rest, k, v =>
    if k' = k then (k, v) :: rest else (k', v') :: Dict.insert rest k v

/-- d.pop(k): drop the binding of k. -/
def Dict.pop {α : Type} : Dict α → String → Dict α
  | [], _ => []
  | (k', v') :: rest, k => if k' = k then rest else (k', v') :: Dict.pop rest k

/-- The keys of the dict, in insertion order. -/
def Dict.keys {α : Type} (d : Dict α) : List String := d.map Prod.fst

/-- tag.split("/") on the character list: split at every slash, Python
semantics (splitting the empty string yields one empty field). -/
def splitSlash : List Char → List (List Char)
  | [] => [[]]
  | c :: rest =>
    let r := splitSlash rest
    if c = '/' then [] :: r
    else
      match r with
      | [] => [[c]]
      | s :: ss => (c :: s) :: ss

/-- Whether pat occurs as a contiguous substring of s. -/
def containsSub (s pat : List Char) : Bool :=
  match s with
  | [] => pat.isEmpty
  | _ :: t => pat.isPrefixOf s || containsSub t pat

/-- fnmatch.fnmatch(tag, "salt/job/*/new"): the pattern compiles to the regex
salt/job/.*/new anchored at both ends, where .* also crosses slashes; so the
tag decomposes as "salt/job/" ++ middle ++ "/new", i.e. it has that prefix and
that suffix without overlap (length at least 13). -/
def fnmatchNew (tag : String) : Bool :=
  ("salt/job/".toList.isPrefixOf tag.toList) && ("/new".toList.isSuffixOf tag.toList)
    && 13 ≤ tag.toList.length

/-- fnmatch.fnmatch(tag, "salt/job/*/ret/*"): the regex salt/job/.*/ret/.*,
i.e. the tag starts with "salt/job/" and "/ret/" occurs somewhere after that
prefix. -/
def fnmatchRet (tag : String) : Bool :=
  ("salt/job/".toList.isPrefixOf tag.toList) && containsSub (tag.toList.drop 9) "/ret/".toList

/-- tag.split("/")[2]: the jid segment. Every tag matched by either pattern
has at least three fields, so the out-of-range default is never reached there. -/
def tagSeg2 (tag : String) : String := String.mk ((splitSlash tag.toList).getD 2 [])

/-- tag.split("/")[-1]: the last segment (the minion id on a ret tag). -/
def tagLast (tag : String) : String := String.mk ((splitSlash tag.toList).getLastD [])

namespace StateAgg

/-- Output record of the simple variant: no grains field at all. -/
structure StateAggregateCollectedEvent where
  data : EventData
  start_time : Int
  end_time : Int
  duration : Int
  minion_id : String
deriving DecidableEq, Repr

/-- ctx.cache of the simple variant. The lazy creation of the "watched_jids"
key in the source is modelled by the field starting at the empty dict. -/
structure StateCache where
  watched_jids : Dict SaltEvent := []
deriving DecidableEq, Repr

/-- One step of state_aggregate.process: returns the updated cache and the
list of records yielded during the step. Total: this variant has no failing
operation. -/
def process (cache : StateCache) (event : CollectedEvent) :
    StateCache × List StateAggregateCollectedEvent :=
  match event with
  | .eventBus salt_event =>
    let tag := salt_event.tag
    let data := salt_event.data
    if fnmatchNew tag then
      if data.jobFun = some "state.apply" then
        let jid := tagSeg2 tag
        ({ cache with watched_jids := cache.watched_jids.insert jid salt_event }, [])
      else (cache, [])
    else if fnmatchRet tag then
      let jid := tagSeg2 tag
      match cache.watched_jids.get? jid with
      | some job_start_event =>
        let minion_id := tagLast tag
        let start_time := job_start_event.stamp
        let end_time := salt_event.stamp
        (cache,
          [{ data := data, start_time := start_time, end_time := end_time,
             duration := end_time - start_time, minion_id := minion_id }])
      | none => (cache, [])
    else (cache, [])
  | _ => (cache, [])

end StateAgg

namespace JobAgg

/-- A watched_jids entry of the enrichment-aware variant:
the dict with keys "minions" (a set of minion ids) and "event". -/
structure JobEntry where
  minions : Finset String
  event : SaltEvent
deriving DecidableEq

/-- Output record of the enrichment-aware variant (class of the same name in
job_aggregate.py): carries a grains field. -/
structure StateAggregateCollectedEvent where
  data : EventData
  start_time : Int
  end_time : Int
  duration : Int
  minion_id : String
  grains : Attrs
deriving DecidableEq, Repr

/-- ctx.cache of the enrichment-aware variant: watched_jids, the grains store
(minion id to grains) and the waiting_for_grains holding records deferred
until grains for their minion arrive. Lazily created keys are modelled by
fields starting empty. -/
structure JobCache where
  watched_jids : Dict JobEntry := []
  grains : Dict Attrs := []
  waiting_for_grains : List StateAggregateCollectedEvent := []
deriving DecidableEq

/-- One step of job_aggregate.process: the updated cache and the records
yielded during the step, or the uncaught exception the step raises.
set.remove on a minion id absent from the expected set raises KeyError. -/
def process (cache : JobCache) (event : CollectedEvent) :
    Except String (JobCache × List StateAggregateCollectedEvent) :=
  match event with
  | .eventBus salt_event =>
    let tag := salt_event.tag
    let data := salt_event.data
    if fnmatchNew tag then
      let jid := tagSeg2 tag
      if (cache.watched_jids.get? jid).isNone then
        let entry : JobEntry :=
          { minions := salt_event.data.minions.toFinset, event := salt_event }
        .ok ({ cache with watched_jids := cache.watched_jids.insert jid entry }, [])
      else .ok (cache, [])
    else if fnmatchRet tag then
      let jid := tagSeg2 tag
      let minion_id := tagLast tag
      match cache.watched_jids.get? jid with
      | some entry =>
        if minion_id ∈ entry.minions then
          let minions' := entry.minions.erase minion_id
          let step :=
            if minions' = ∅ then
              ({ cache with watched_jids := cache.watched_jids.pop jid }, entry.event)
            else
              ({ cache with watched_jids :=
                   cache.watched_jids.insert jid { entry with minions := minions' } },
                entry.event)
          let cache' := step.1
          let job_start_event := step.2
          let start_time := job_start_event.stamp
          let end_time := salt_event.stamp
          let grains := (cache'.grains.get? minion_id).getD []
          let ret : StateAggregateCollectedEvent :=
            { data := data, start_time := start_time, end_time := end_time,
              duration := end_time - start_time, minion_id := minion_id, grains := grains }
          if grains ≠ [] then .ok (cache', [ret])
          else .ok ({ cache' with waiting_for_grains := cache'.waiting_for_grains ++ [ret] }, [])
        else .error ("KeyError: " ++ minion_id)
      | none => .ok (cache, [])
    else .ok (cache, [])
  | .grainsCollected minion grains =>
    let cache1 := { cache with grains := cache.grains.insert minion grains }
    let waiting := cache1.waiting_for_grains
    if waiting.isEmpty then .ok (cache1, [])
    else
      let to_remove := waiting.filter (fun r => r.minion_id == minion)
      let emitted := to_remove.map (fun r => { r with grains := grains })
      .ok ({ cache1 with
               waiting_for_grains := waiting.filter (fun r => ¬ r.minion_id == minion) },
        emitted)
  | .otherEvent => .ok (cache, [])

/-- Run a list of events, keeping the records yielded at each step. -/
def runList (cache : JobCache) :
    List CollectedEvent → Except String (JobCache × List (List StateAggregateCollectedEvent))
  | [] => .ok (cache, [])
  | e :: es =>
    match process cache e with
    | .error msg => .error msg
    | .ok s1 =>
      match runList s1.1 es with
      | .error msg => .error msg
      | .ok s2 => .ok (s2.1, s1.2 :: s2.2)

/-- The registry invariant of the claim: every job id has at most one entry
(association-list keys are duplicate-free) and every tracked entry still
expects at least one responder. -/
def RegistryInv (cache : JobCache) : Prop :=
  cache.watched_jids.keys.Nodup ∧ ∀ p ∈ cache.watched_jids, p.2.minions ≠ ∅

end JobAgg

instance {ε α : Type} [DecidableEq ε] [DecidableEq α] : DecidableEq (Except ε α)
  | .ok a, .ok b =>
    if h : a = b then .isTrue (congrArg Except.ok h)
    else .isFalse (fun hc => h (Except.ok.inj hc))
  | .ok _, .error _ => .isFalse (fun hc => Except.noConfusion hc)
  | .error _, .ok _ => .isFalse (fun hc => Except.noConfusion hc)
  | .error e, .error f =>
    if h : e = f then .isTrue (congrArg Except.error h)
    else .isFalse (fun hc => h (Except.error.inj hc))

/-! Association-list dict lemmas. -/

theorem Dict.get?_insert_self {α : Type} (d : Dict α) (k : String) (v : α) :
    (d.insert k v).get? k = some v := by
  induction d with
  | nil => simp [Dict.insert, Dict.get?]
  | cons p rest ih =>
    obtain ⟨k', v'⟩ := p
    by_cases h : k' = k
    · simp [Dict.insert, Dict.get?, h]
    · simp [Dict.insert, Dict.get?, h, ih]

theorem Dict.get?_insert_ne {α : Type} (d : Dict α) (k : String) (v : α) (j : String)
    (h : j ≠ k) : (d.insert k v).get? j = d.get? j := by
  have hkj : ¬ k = j := fun hc => h hc.symm
  induction d with
  | nil => simp [Dict.insert, Dict.get?, hkj]
  | cons p rest ih =>
    obtain ⟨k', v'⟩ := p
    by_cases hk : k' = k
    · subst hk
      simp [Dict.insert, Dict.get?, hkj]
    · simp [Dict.insert, Dict.get?, hk, ih]

theorem Dict.get?_pop_ne {α : Type} (d : Dict α) (k : String) (j : String)
    (h : j ≠ k) : (d.pop k).get? j = d.get? j := by
  have hkj : ¬ k = j := fun hc => h hc.symm
  induction d with
  | nil => simp [Dict.pop, Dict.get?]
  | cons p rest ih =>
    obtain ⟨k', v'⟩ := p
    by_cases hk : k' = k
    · subst hk
      simp [Dict.pop, Dict.get?, hkj]
    · simp [Dict.pop, Dict.get?, hk, ih]

theorem Dict.get?_eq_none_of_not_mem_keys {α : Type} (d : Dict α) (k : String)
    (h : k ∉ d.keys) : d.get? k = none := by
  induction d with
  | nil => simp [Dict.get?]
  | cons p rest ih =>
    obtain ⟨k', v'⟩ := p
    simp only [Dict.keys, List.map_cons, List.mem_cons] at h
    push_neg at h
    have h1 : ¬ k' = k := fun hc => h.1 hc.symm
    have h2 : k ∉ rest.map Prod.fst := h.2
    simp [Dict.get?, h1, ih h2]

theorem Dict.keys_cons {α : Type} (k' : String) (v' : α) (rest : Dict α) :
    Dict.keys ((k', v') :: rest) = k' :: Dict.keys rest := rfl

theorem Dict.get?_pop_self {α : Type} (d : Dict α) (k : String)
    (h : d.keys.Nodup) : (d.pop k).get? k = none := by
  induction d with
  | nil => simp [Dict.pop, Dict.get?]
  | cons p rest ih =>
    obtain ⟨k', v'⟩ := p
    rw [Dict.keys_cons, List.nodup_cons] at h
    by_cases hk : k' = k
    · subst hk
      rw [show Dict.pop ((k', v') :: rest) k' = rest from by simp [Dict.pop]]
      exact Dict.get?_eq_none_of_not_mem_keys rest k' h.1
    · rw [show Dict.pop ((k', v') :: rest) k = (k', v') :: Dict.pop rest k from by
        simp [Dict.pop, hk]]
      simp [Dict.get?, hk, ih h.2]

theorem Dict.mem_keys_insert {α : Type} (d : Dict α) (k : String) (v : α) (a : String) :
    a ∈ (d.insert k v).keys ↔ a ∈ d.keys ∨ a = k := by
  induction d with
  | nil => simp [Dict.insert, Dict.keys]
  | cons p rest ih =>
    obtain ⟨k', v'⟩ := p
    by_cases hk : k' = k
    · subst hk
      rw [show Dict.insert ((k', v') :: rest) k' v = (k', v) :: rest from by simp [Dict.insert]]
      rw [Dict.keys_cons, Dict.keys_cons]
      simp only [List.mem_cons]
      tauto
    · rw [show Dict.insert ((k', v') :: rest) k v = (k', v') :: Dict.insert rest k v from by
        simp [Dict.insert, hk]]
      rw [Dict.keys_cons, Dict.keys_cons]
      simp only [List.mem_cons, ih]
      tauto

theorem Dict.keys_nodup_insert {α : Type} (d : Dict α) (k : String) (v : α)
    (h : d.keys.Nodup) : (d.insert k v).keys.Nodup := by
  induction d with
  | nil => simp [Dict.insert, Dict.keys]
  | cons p rest ih =>
    obtain ⟨k', v'⟩ := p
    rw [Dict.keys_cons, List.nodup_cons] at h
    by_cases hk : k' = k
    · subst hk
      rw [show Dict.insert ((k', v') :: rest) k' v = (k', v) :: rest from by simp [Dict.insert]]
      rw [Dict.keys_cons, List.nodup_cons]
      exact ⟨h.1, h.2⟩
    · rw [show Dict.insert ((k', v') :: rest) k v = (k', v') :: Dict.insert rest k v from by
        simp [Dict.insert, hk]]
      rw [Dict.keys_cons, List.nodup_cons]
      refine ⟨?_, ih h.2⟩
      intro hc
      rcases (Dict.mem_keys_insert rest k v k').mp hc with hc' | hc'
      · exact h.1 hc'
      · exact hk hc'

theorem Dict.mem_keys_pop {α : Type} (d : Dict α) (k : String) (a : String) :
    a ∈ (d.pop k).keys → a ∈ d.keys := by
  induction d with
  | nil => simp [Dict.pop]
  | cons p rest ih =>
    obtain ⟨k', v'⟩ := p
    by_cases hk : k' = k
    · subst hk
      rw [show Dict.pop ((k', v') :: rest) k' = rest from by simp [Dict.pop]]
      rw [Dict.keys_cons]
      exact fun h => List.mem_cons_of_mem _ h
    · rw [show Dict.pop ((k', v') :: rest) k = (k', v') :: Dict.pop rest k from by
        simp [Dict.pop, hk]]
      rw [Dict.keys_cons, Dict.keys_cons]
      simp only [List.mem_cons]
      rintro (h | h)
      · exact Or.inl h
      · exact Or.inr (ih h)

theorem Dict.keys_nodup_pop {α : Type} (d : Dict α) (k : String)
    (h : d.keys.Nodup) : (d.pop k).keys.Nodup := by
  induction d with
  | nil => simpa [Dict.pop] using h
  | cons p rest ih =>
    obtain ⟨k', v'⟩ := p
    rw [Dict.keys_cons, List.nodup_cons] at h
    by_cases hk : k' = k
    · subst hk
      rw [show Dict.pop ((k', v') :: rest) k' = rest from by simp [Dict.pop]]
      exact h.2
    · rw [show Dict.pop ((k', v') :: rest) k = (k', v') :: Dict.pop rest k from by
        simp [Dict.pop, hk]]
      rw [Dict.keys_cons, List.nodup_cons]
      exact ⟨fun hc => h.1 (Dict.mem_keys_pop rest k k' hc), ih h.2⟩

theorem Dict.mem_insert_elim {α : Type} (d : Dict α) (k : String) (v : α)
    (p : String × α) (h : p ∈ d.insert k v) : p ∈ d ∨ p = (k, v) := by
  induction d with
  | nil =>
    simp [Dict.insert] at h
    exact Or.inr h
  | cons q rest ih =>
    obtain ⟨k', v'⟩ := q
    by_cases hk : k' = k
    · subst hk
      rw [show Dict.insert ((k', v') :: rest) k' v = (k', v) :: rest from by
        simp [Dict.insert]] at h
      rcases List.mem_cons.mp h with h' | h'
      · exact Or.inr h'
      · exact Or.inl (List.mem_cons_of_mem _ h')
    · rw [show Dict.insert ((k', v') :: rest) k v = (k', v') :: Dict.insert rest k v from by
        simp [Dict.insert, hk]] at h
      rcases List.mem_cons.mp h with h' | h'
      · exact Or.inl (by simp [h'])
      · rcases ih h' with h'' | h''
        · exact Or.inl (List.mem_cons_of_mem _ h'')
        · exact Or.inr h''

theorem Dict.mem_pop_elim {α : Type} (d : Dict α) (k : String)
    (p : String × α) (h : p ∈ d.pop k) : p ∈ d := by
  induction d with
  | nil => exact h
  | cons q rest ih =>
    obtain ⟨k', v'⟩ := q
    by_cases hk : k' = k
    · subst hk
      rw [show Dict.pop ((k', v') :: rest) k' = rest from by simp [Dict.pop]] at h
      exact List.mem_cons_of_mem _ h
    · rw [show Dict.pop ((k', v') :: rest) k = (k', v') :: Dict.pop rest k from by
        simp [Dict.pop, hk]] at h
      rcases List.mem_cons.mp h with h' | h'
      · exact List.mem_cons.mpr (Or.inl h')
      · exact List.mem_cons_of_mem _ (ih h')

theorem Dict.get?_isSome_insert {α : Type} (d : Dict α) (k : String) (v : α) (j : String)
    (h : (d.get? j).isSome) : ((d.insert k v).get? j).isSome := by
  by_cases hj : j = k
  · subst hj
    simp [Dict.get?_insert_self]
  · rw [Dict.get?_insert_ne d k v j hj]
    exact h

/-! Step-characterization lemmas for the two process functions: one lemma per
branch of the source, with the branch conditions as hypotheses. -/

namespace JobAgg

/-- Completion for an untracked jid: falls through, nothing mutated, nothing
yielded (the if jid in watched_jids guard fails). -/
theorem process_ret_untracked (cache : JobCache) (salt_event : SaltEvent)
    (hN : fnmatchNew salt_event.tag = false)
    (hR : fnmatchRet salt_event.tag = true)
    (hJ : cache.watched_jids.get? (tagSeg2 salt_event.tag) = none) :
    process cache (.eventBus salt_event) = .ok (cache, []) := by
  simp only [process, hN, hR, hJ]
  simp

/-- Completion for a tracked jid by a minion in the expected set: the expected
set shrinks (the jid is popped when it empties), and the record is yielded
when the grains lookup is truthy, deferred into waiting_for_grains otherwise. -/
theorem process_ret_tracked (cache : JobCache) (salt_event : SaltEvent) (entry : JobEntry)
    (hN : fnmatchNew salt_event.tag = false)
    (hR : fnmatchRet salt_event.tag = true)
    (hJ : cache.watched_jids.get? (tagSeg2 salt_event.tag) = some entry)
    (hmem : tagLast salt_event.tag ∈ entry.minions) :
    process cache (.eventBus salt_event) =
      (let jid := tagSeg2 salt_event.tag
       let m := tagLast salt_event.tag
       let entry2 : JobEntry := { entry with minions := entry.minions.erase m }
       let w' := if entry.minions.erase m = ∅
                 then cache.watched_jids.pop jid
                 else cache.watched_jids.insert jid entry2
       let g := (cache.grains.get? m).getD []
       let ret : StateAggregateCollectedEvent :=
         { data := salt_event.data, start_time := entry.event.stamp,
           end_time := salt_event.stamp,
           duration := salt_event.stamp - entry.event.stamp, minion_id := m, grains := g }
       if g ≠ [] then .ok ({ cache with watched_jids := w' }, [ret])
       else .ok ({ cache with
                   watched_jids := w',
                   waiting_for_grains := cache.waiting_for_grains ++ [ret] }, [])) := by
  simp only [process, hN, hR, hJ, hmem]
  by_cases he : entry.minions.erase (tagLast salt_event.tag) = ∅
  · simp [he]
  · simp [he]

/-- Completion for a tracked jid by a minion NOT in the expected set:
set.remove raises KeyError. -/
theorem process_ret_not_expected (cache : JobCache) (salt_event : SaltEvent) (entry : JobEntry)
    (hN : fnmatchNew salt_event.tag = false)
    (hR : fnmatchRet salt_event.tag = true)
    (hJ : cache.watched_jids.get? (tagSeg2 salt_event.tag) = some entry)
    (hmem : tagLast salt_event.tag ∉ entry.minions) :
    process cache (.eventBus salt_event) = .error ("KeyError: " ++ tagLast salt_event.tag) := by
  simp only [process, hN, hR, hJ, hmem]
  simp

/-- New-job event for an untracked jid: the jid is inserted with the minion
set taken from the payload; nothing yielded. -/
theorem process_new_untracked (cache : JobCache) (salt_event : SaltEvent)
    (hN : fnmatchNew salt_event.tag = true)
    (hJ : cache.watched_jids.get? (tagSeg2 salt_event.tag) = none) :
    process cache (.eventBus salt_event) =
      .ok ({ cache with
             watched_jids := cache.watched_jids.insert (tagSeg2 salt_event.tag)
               { minions := salt_event.data.minions.toFinset, event := salt_event } }, []) := by
  simp only [process, hN, hJ]
  simp

/-- New-job event for an already tracked jid: ignored entirely. -/
theorem process_new_tracked (cache : JobCache) (salt_event : SaltEvent) (entry : JobEntry)
    (hN : fnmatchNew salt_event.tag = true)
    (hJ : cache.watched_jids.get? (tagSeg2 salt_event.tag) = some entry) :
    process cache (.eventBus salt_event) = .ok (cache, []) := by
  simp only [process, hN, hJ]
  simp

/-- A grains event: upserts the grains store, then releases every waiting
record of that minion with the new grains attached; the rest keep waiting. -/
theorem process_grains (cache : JobCache) (minion : String) (grains : Attrs) :
    process cache (.grainsCollected minion grains) =
      .ok ({ cache with
             grains := cache.grains.insert minion grains,
             waiting_for_grains :=
               cache.waiting_for_grains.filter (fun r => ¬ r.minion_id == minion) },
        (cache.waiting_for_grains.filter (fun r => r.minion_id == minion)).map
          (fun r => { r with grains := grains })) := by
  by_cases hw : cache.waiting_for_grains = []
  · simp [process, hw]
  · simp only [process]
    rw [if_neg (by simpa [List.isEmpty_iff] using hw)]

end JobAgg

namespace StateAgg

/-- Completion for an untracked jid in the simple variant: nothing happens. -/
theorem state_ret_untracked (cache : StateCache) (salt_event : SaltEvent)
    (hN : fnmatchNew salt_event.tag = false)
    (hR : fnmatchRet salt_event.tag = true)
    (hJ : cache.watched_jids.get? (tagSeg2 salt_event.tag) = none) :
    process cache (.eventBus salt_event) = (cache, []) := by
  simp only [process, hN, hR, hJ]
  simp

/-- Completion for a tracked jid in the simple variant: exactly one record is
yielded, built from the stored start event, and the cache is untouched. -/
theorem state_ret_tracked (cache : StateCache) (salt_event : SaltEvent)
    (job_start_event : SaltEvent)
    (hN : fnmatchNew salt_event.tag = false)
    (hR : fnmatchRet salt_event.tag = true)
    (hJ : cache.watched_jids.get? (tagSeg2 salt_event.tag) = some job_start_event) :
    process cache (.eventBus salt_event) =
      (cache,
        [{ data := salt_event.data, start_time := job_start_event.stamp,
           end_time := salt_event.stamp,
           duration := salt_event.stamp - job_start_event.stamp,
           minion_id := tagLast salt_event.tag }]) := by
  simp only [process, hN, hR, hJ]
  simp

/-- New state.apply job in the simple variant: unconditional insert
(overwriting any previous entry of that jid). -/
theorem state_new_apply (cache : StateCache) (salt_event : SaltEvent)
    (hN : fnmatchNew salt_event.tag = true)
    (hfun : salt_event.data.jobFun = some "state.apply") :
    process cache (.eventBus salt_event) =
      ({ cache with
         watched_jids := cache.watched_jids.insert (tagSeg2 salt_event.tag) salt_event }, []) := by
  simp only [process, hN, hfun]
  simp

/-- New-job event whose payload fun is not "state.apply": ignored by the
simple variant. -/
theorem state_new_not_apply (cache : StateCache) (salt_event : SaltEvent)
    (hN : fnmatchNew salt_event.tag = true)
    (hfun : ¬ salt_event.data.jobFun = some "state.apply") :
    process cache (.eventBus salt_event) = (cache, []) := by
  simp only [process, hN, hfun]
  simp

/-- An event-bus event matching neither tag pattern: ignored. -/
theorem state_no_match (cache : StateCache) (salt_event : SaltEvent)
    (hN : fnmatchNew salt_event.tag = false)
    (hR : fnmatchRet salt_event.tag = false) :
    process cache (.eventBus salt_event) = (cache, []) := by
  simp only [process, hN, hR]
  simp

/-- A non event-bus event: the simple variant ignores it. -/
theorem state_grains_event (cache : StateCache) (minion : String) (grains : Attrs) :
    process cache (.grainsCollected minion grains) = (cache, []) := rfl

/-- An other event: ignored. -/
theorem state_other_event (cache : StateCache) :
    process cache .otherEvent = (cache, []) := rfl

end StateAgg

namespace JobAgg

/-- An event-bus event matching neither tag pattern: ignored by the
enrichment-aware variant. -/
theorem process_no_match (cache : JobCache) (salt_event : SaltEvent)
    (hN : fnmatchNew salt_event.tag = false)
    (hR : fnmatchRet salt_event.tag = false) :
    process cache (.eventBus salt_event) = .ok (cache, []) := by
  simp only [process, hN, hR]
  simp

/-- An other event: ignored. -/
theorem process_other_event (cache : JobCache) :
    process cache .otherEvent = .ok (cache, []) := rfl

/-- Any successful step preserves the registry invariant, provided every
matched new-job event carries a non-empty minions list. -/
theorem registryInv_step (cache : JobCache) (event : CollectedEvent)
    (hInv : RegistryInv cache)
    (hstart : ∀ se, event = .eventBus se → fnmatchNew se.tag = true →
      se.data.minions ≠ [])
    (cache' : JobCache) (recs : List StateAggregateCollectedEvent)
    (h : process cache event = .ok (cache', recs)) :
    RegistryInv cache' := by
  cases event with
  | otherEvent =>
    rw [process_other_event] at h
    simp only [Except.ok.injEq, Prod.mk.injEq] at h
    obtain ⟨rfl, rfl⟩ := h
    exact hInv
  | grainsCollected m g =>
    rw [process_grains] at h
    simp only [Except.ok.injEq, Prod.mk.injEq] at h
    obtain ⟨h1, rfl⟩ := h
    subst h1
    exact hInv
  | eventBus se =>
    cases hN : fnmatchNew se.tag with
    | true =>
      cases hget : cache.watched_jids.get? (tagSeg2 se.tag) with
      | none =>
        rw [process_new_untracked cache se hN hget] at h
        simp only [Except.ok.injEq, Prod.mk.injEq] at h
        obtain ⟨h1, rfl⟩ := h
        subst h1
        refine ⟨Dict.keys_nodup_insert _ _ _ hInv.1, ?_⟩
        intro p hp
        rcases Dict.mem_insert_elim _ _ _ p hp with hp' | hp'
        · exact hInv.2 p hp'
        · subst hp'
          simp only [ne_eq, List.toFinset_eq_empty_iff]
          exact hstart se rfl hN
      | some entry =>
        rw [process_new_tracked cache se entry hN hget] at h
        simp only [Except.ok.injEq, Prod.mk.injEq] at h
        obtain ⟨h1, rfl⟩ := h
        subst h1
        exact hInv
    | false =>
      cases hR : fnmatchRet se.tag with
      | false =>
        rw [process_no_match cache se hN hR] at h
        simp only [Except.ok.injEq, Prod.mk.injEq] at h
        obtain ⟨h1, rfl⟩ := h
        subst h1
        exact hInv
      | true =>
        cases hget : cache.watched_jids.get? (tagSeg2 se.tag) with
        | none =>
          rw [process_ret_untracked cache se hN hR hget] at h
          simp only [Except.ok.injEq, Prod.mk.injEq] at h
          obtain ⟨h1, rfl⟩ := h
          subst h1
          exact hInv
        | some entry =>
          by_cases hmem : tagLast se.tag ∈ entry.minions
          · rw [process_ret_tracked cache se entry hN hR hget hmem] at h
            by_cases he : entry.minions.erase (tagLast se.tag) = ∅
            · by_cases hgr : ((cache.grains.get? (tagLast se.tag)).getD []) = []
              · simp only [he, hgr, if_pos, if_neg, ite_true, ite_false, ne_eq,
                  not_true_eq_false, not_false_eq_true, Except.ok.injEq, Prod.mk.injEq] at h
                obtain ⟨h1, rfl⟩ := h
                subst h1
                exact ⟨Dict.keys_nodup_pop _ _ hInv.1,
                  fun p hp => hInv.2 p (Dict.mem_pop_elim _ _ p hp)⟩
              · simp only [he, hgr, if_pos, if_neg, ite_true, ite_false, ne_eq,
                  not_true_eq_false, not_false_eq_true, Except.ok.injEq, Prod.mk.injEq] at h
                obtain ⟨h1, rfl⟩ := h
                subst h1
                exact ⟨Dict.keys_nodup_pop _ _ hInv.1,
                  fun p hp => hInv.2 p (Dict.mem_pop_elim _ _ p hp)⟩
            · by_cases hgr : ((cache.grains.get? (tagLast se.tag)).getD []) = []
              · simp only [he, hgr, if_pos, if_neg, ite_true, ite_false, ne_eq,
                  not_true_eq_false, not_false_eq_true, Except.ok.injEq, Prod.mk.injEq] at h
                obtain ⟨h1, rfl⟩ := h
                subst h1
                refine ⟨Dict.keys_nodup_insert _ _ _ hInv.1, ?_⟩
                intro p hp
                rcases Dict.mem_insert_elim _ _ _ p hp with hp' | hp'
                · exact hInv.2 p hp'
                · subst hp'
                  exact he
              · simp only [he, hgr, if_pos, if_neg, ite_true, ite_false, ne_eq,
                  not_true_eq_false, not_false_eq_true, Except.ok.injEq, Prod.mk.injEq] at h
                obtain ⟨h1, rfl⟩ := h
                subst h1
                refine ⟨Dict.keys_nodup_insert _ _ _ hInv.1, ?_⟩
                intro p hp
                rcases Dict.mem_insert_elim _ _ _ p hp with hp' | hp'
                · exact hInv.2 p hp'
                · subst hp'
                  exact he
          · rw [process_ret_not_expected cache se entry hN hR hget hmem] at h
            simp at h


/-- Assemble a run from a successful first step and the run of the rest. -/
theorem runList_cons_ok (cache : JobCache) (e : CollectedEvent) (es : List CollectedEvent)
    (c1 : JobCache) (recs1 : List StateAggregateCollectedEvent)
    (c2 : JobCache) (recss : List (List StateAggregateCollectedEvent))
    (h1 : process cache e = .ok (c1, recs1))
    (h2 : runList c1 es = .ok (c2, recss)) :
    runList cache (e :: es) = .ok (c2, recs1 :: recss) := by
  simp only [runList, h1, h2]

/-- Registry projection of a tracked completion step: whatever the grains
branch does, the step succeeds and the registry shrinks as described. -/
theorem process_ret_tracked_watched (cache : JobCache) (salt_event : SaltEvent)
    (entry : JobEntry)
    (hN : fnmatchNew salt_event.tag = false)
    (hR : fnmatchRet salt_event.tag = true)
    (hJ : cache.watched_jids.get? (tagSeg2 salt_event.tag) = some entry)
    (hmem : tagLast salt_event.tag ∈ entry.minions) :
    ∃ (c1 : JobCache) (recs1 : List StateAggregateCollectedEvent),
      process cache (.eventBus salt_event) = .ok (c1, recs1) ∧
      c1.watched_jids =
        (if entry.minions.erase (tagLast salt_event.tag) = ∅
         then cache.watched_jids.pop (tagSeg2 salt_event.tag)
         else cache.watched_jids.insert (tagSeg2 salt_event.tag)
                { entry with minions := entry.minions.erase (tagLast salt_event.tag) }) ∧
      c1.grains = cache.grains := by
  rw [process_ret_tracked cache salt_event entry hN hR hJ hmem]
  by_cases he : entry.minions.erase (tagLast salt_event.tag) = ∅ <;>
    by_cases hgr : ((cache.grains.get? (tagLast salt_event.tag)).getD []) = [] <;>
      simp [he, hgr]


/-- Processing a list of completion events for one tracked jid by distinct
expected responders: the run succeeds, keys stay duplicate-free, and the
entry keeps exactly the not-yet-returned responders, the jid being popped
precisely when every expected responder has returned. -/
theorem watched_after_ret_list (ses : List SaltEvent) :
    ∀ (cache : JobCache) (jid : String) (entry : JobEntry),
    cache.watched_jids.keys.Nodup →
    cache.watched_jids.get? jid = some entry →
    entry.minions ≠ ∅ →
    (∀ se ∈ ses, fnmatchNew se.tag = false ∧ fnmatchRet se.tag = true ∧
       tagSeg2 se.tag = jid) →
    (ses.map (fun se => tagLast se.tag)).Nodup →
    (∀ se ∈ ses, tagLast se.tag ∈ entry.minions) →
    ∃ (c' : JobCache) (recss : List (List StateAggregateCollectedEvent)),
      runList cache (ses.map .eventBus) = .ok (c', recss) ∧
      c'.watched_jids.keys.Nodup ∧
      (if entry.minions \ (ses.map (fun se => tagLast se.tag)).toFinset = ∅
       then c'.watched_jids.get? jid = none
       else c'.watched_jids.get? jid =
         some { entry with
                minions := entry.minions \ (ses.map (fun se => tagLast se.tag)).toFinset }) := by
  induction ses with
  | nil =>
    intro cache jid entry hnd hJ hne _hcond _hnd2 _hsub
    refine ⟨cache, [], rfl, hnd, ?_⟩
    have hc : ¬ (entry.minions \
        (([] : List SaltEvent).map (fun se => tagLast se.tag)).toFinset = ∅) := by
      simpa using hne
    rw [if_neg hc]
    simp only [List.map_nil, List.toFinset_nil, Finset.sdiff_empty]
    exact hJ
  | cons se rest ih =>
    intro cache jid entry hnd hJ hne hcond hnd2 hsub
    obtain ⟨hN, hR, hjid⟩ := hcond se (List.mem_cons_self se rest)
    subst hjid
    have hm : tagLast se.tag ∈ entry.minions := hsub se (List.mem_cons_self se rest)
    obtain ⟨c1, recs1, hp, hw, hg⟩ :=
      process_ret_tracked_watched cache se entry hN hR hJ hm
    by_cases he : entry.minions.erase (tagLast se.tag) = ∅
    · have hrest : rest = [] := by
        cases rest with
        | nil => rfl
        | cons a t =>
          have hmema : tagLast a.tag ∈ entry.minions := hsub a (by simp)
          have hnea : tagLast a.tag ≠ tagLast se.tag := by
            simp only [List.map_cons, List.nodup_cons, List.mem_cons] at hnd2
            intro hc
            exact hnd2.1 (Or.inl hc.symm)
          have hmem' : tagLast a.tag ∈ entry.minions.erase (tagLast se.tag) :=
            Finset.mem_erase.mpr ⟨hnea, hmema⟩
          rw [he] at hmem'
          exact absurd hmem' (Finset.not_mem_empty _)
      subst hrest
      rw [if_pos he] at hw
      refine ⟨c1, [recs1], ?_, ?_, ?_⟩
      · exact runList_cons_ok cache (.eventBus se) [] c1 recs1 c1 [] hp rfl
      · rw [hw]
        exact Dict.keys_nodup_pop _ _ hnd
      · have hsing : (([se] : List SaltEvent).map (fun s => tagLast s.tag)).toFinset =
            {tagLast se.tag} := by simp
        have hc : entry.minions \
            (([se] : List SaltEvent).map (fun s => tagLast s.tag)).toFinset = ∅ := by
          rw [hsing, Finset.sdiff_singleton_eq_erase]
          exact he
        rw [if_pos hc, hw]
        exact Dict.get?_pop_self _ _ hnd
    · rw [if_neg he] at hw
      have hJ1 : c1.watched_jids.get? (tagSeg2 se.tag) =
          some { entry with minions := entry.minions.erase (tagLast se.tag) } := by
        rw [hw]
        exact Dict.get?_insert_self _ _ _
      have hnd1 : c1.watched_jids.keys.Nodup := by
        rw [hw]
        exact Dict.keys_nodup_insert _ _ _ hnd
      have hcond1 : ∀ s ∈ rest, fnmatchNew s.tag = false ∧ fnmatchRet s.tag = true ∧
          tagSeg2 s.tag = tagSeg2 se.tag :=
        fun s hs => hcond s (List.mem_cons_of_mem _ hs)
      have hnd21 : (rest.map (fun s => tagLast s.tag)).Nodup := by
        simp only [List.map_cons, List.nodup_cons] at hnd2
        exact hnd2.2
      have hsub1 : ∀ s ∈ rest,
          tagLast s.tag ∈ entry.minions.erase (tagLast se.tag) := by
        intro s hs
        refine Finset.mem_erase.mpr ⟨?_, hsub s (List.mem_cons_of_mem _ hs)⟩
        simp only [List.map_cons, List.nodup_cons] at hnd2
        intro hc
        exact hnd2.1 (hc ▸ List.mem_map_of_mem (fun x => tagLast x.tag) hs)
      obtain ⟨c'', recss'', hrun, hnodup'', hif⟩ :=
        ih c1 (tagSeg2 se.tag) { entry with minions := entry.minions.erase (tagLast se.tag) }
          hnd1 hJ1 he hcond1 hnd21 hsub1
      have hset : entry.minions.erase (tagLast se.tag) \
            (rest.map (fun s => tagLast s.tag)).toFinset =
          entry.minions \ (((se :: rest).map (fun s => tagLast s.tag)).toFinset) := by
        simp only [List.map_cons, List.toFinset_cons]
        rw [Finset.erase_eq, sdiff_sdiff_left, Finset.sup_eq_union, Finset.insert_eq]
      refine ⟨c'', recs1 :: recss'', ?_, hnodup'', ?_⟩
      · exact runList_cons_ok cache (.eventBus se) (rest.map .eventBus) c1 recs1 c''
          recss'' hp hrun
      · dsimp only at hif
        rw [hset] at hif
        exact hif

end JobAgg

/-! Claim theorems. -/

/-- C6: a completion event whose job id is not in the registry emits zero
consolidated records, raises no error, and leaves every container (registry,
grains store, pending set) unchanged, in both variants. -/
theorem completion_untracked_jid_is_noop
    (cache : JobAgg.JobCache) (scache : StateAgg.StateCache) (salt_event : SaltEvent)
    (hN : fnmatchNew salt_event.tag = false)
    (hR : fnmatchRet salt_event.tag = true)
    (hJ : cache.watched_jids.get? (tagSeg2 salt_event.tag) = none)
    (hS : scache.watched_jids.get? (tagSeg2 salt_event.tag) = none) :
    JobAgg.process cache (.eventBus salt_event) = .ok (cache, []) ∧
    StateAgg.process scache (.eventBus salt_event) = (scache, []) :=
  ⟨JobAgg.process_ret_untracked cache salt_event hN hR hJ,
   StateAgg.state_ret_untracked scache salt_event hN hR hS⟩

theorem completion_untracked_jid_is_noop_witness :
    fnmatchNew "salt/job/9/ret/m1" = false ∧
    fnmatchRet "salt/job/9/ret/m1" = true ∧
    JobAgg.process {}
        (.eventBus { tag := "salt/job/9/ret/m1",
                     data := { jobFun := none, minions := [] }, stamp := 3 }) =
      .ok ({}, []) ∧
    StateAgg.process {}
        (.eventBus { tag := "salt/job/9/ret/m1",
                     data := { jobFun := none, minions := [] }, stamp := 3 }) =
      ({}, []) :=
  ⟨by decide, by decide,
   (completion_untracked_jid_is_noop {} {}
      { tag := "salt/job/9/ret/m1", data := { jobFun := none, minions := [] }, stamp := 3 }
      (by decide) (by decide) (by decide) (by decide)).1,
   (completion_untracked_jid_is_noop {} {}
      { tag := "salt/job/9/ret/m1", data := { jobFun := none, minions := [] }, stamp := 3 }
      (by decide) (by decide) (by decide) (by decide)).2⟩

/-- C1: the claim (and the spec) say a completion whose responder is not in
the tracked job's expected set is silently dropped with no error. The code
instead calls set.remove, which raises KeyError. Evaluated at the failing
input: job "1" is tracked expecting only minion A, and a completion from
minion B arrives — the step raises KeyError("B") instead of no-op. -/
theorem completion_unexpected_responder_raises_keyerror :
    JobAgg.process
      { watched_jids :=
          [("1", { minions := {"A"},
                   event := { tag := "salt/job/1/new",
                              data := { jobFun := none, minions := ["A"] },
                              stamp := 0 } })] }
      (.eventBus { tag := "salt/job/1/ret/B",
                   data := { jobFun := none, minions := [] }, stamp := 7 }) =
      .error "KeyError: B" := by
  decide

/-- C7: on a JobStarted event whose job id is already tracked, the simple
variant overwrites the registry entry with the new start event (and yields
nothing), while the enrichment-aware variant keeps the first entry and
ignores the duplicate entirely. -/
theorem duplicate_start_overwrite_vs_ignore
    (scache : StateAgg.StateCache) (cache : JobAgg.JobCache) (salt_event : SaltEvent)
    (hN : fnmatchNew salt_event.tag = true)
    (hfun : salt_event.data.jobFun = some "state.apply")
    (prev : SaltEvent)
    (_hS : scache.watched_jids.get? (tagSeg2 salt_event.tag) = some prev)
    (entry : JobAgg.JobEntry)
    (hJ : cache.watched_jids.get? (tagSeg2 salt_event.tag) = some entry) :
    (StateAgg.process scache (.eventBus salt_event)).1.watched_jids.get?
        (tagSeg2 salt_event.tag) = some salt_event ∧
    (StateAgg.process scache (.eventBus salt_event)).2 = [] ∧
    JobAgg.process cache (.eventBus salt_event) = .ok (cache, []) := by
  refine ⟨?_, ?_, JobAgg.process_new_tracked cache salt_event entry hN hJ⟩
  · rw [StateAgg.state_new_apply scache salt_event hN hfun]
    exact Dict.get?_insert_self _ _ _
  · rw [StateAgg.state_new_apply scache salt_event hN hfun]

theorem duplicate_start_overwrite_vs_ignore_witness :
    Dict.get? [("1", ({ tag := "salt/job/1/new",
                        data := { jobFun := some "state.apply", minions := [] },
                        stamp := 0 } : SaltEvent))] "1" =
      some { tag := "salt/job/1/new",
             data := { jobFun := some "state.apply", minions := [] }, stamp := 0 } ∧
    (StateAgg.process
        { watched_jids :=
            [("1", { tag := "salt/job/1/new",
                     data := { jobFun := some "state.apply", minions := [] }, stamp := 0 })] }
        (.eventBus { tag := "salt/job/1/new",
                     data := { jobFun := some "state.apply", minions := ["A"] },
                     stamp := 4 })).1.watched_jids.get? (tagSeg2 "salt/job/1/new") =
      some { tag := "salt/job/1/new",
             data := { jobFun := some "state.apply", minions := ["A"] }, stamp := 4 } ∧
    JobAgg.process
        { watched_jids :=
            [("1", { minions := {"A"},
                     event := { tag := "salt/job/1/new",
                                data := { jobFun := none, minions := ["A"] },
                                stamp := 0 } })] }
        (.eventBus { tag := "salt/job/1/new",
                     data := { jobFun := some "state.apply", minions := ["A"] },
                     stamp := 4 }) =
      .ok ({ watched_jids :=
               [("1", { minions := {"A"},
                        event := { tag := "salt/job/1/new",
                                   data := { jobFun := none, minions := ["A"] },
                                   stamp := 0 } })] }, []) :=
  ⟨by decide,
   (duplicate_start_overwrite_vs_ignore
      { watched_jids :=
          [("1", { tag := "salt/job/1/new",
                   data := { jobFun := some "state.apply", minions := [] }, stamp := 0 })] }
      { watched_jids :=
          [("1", { minions := {"A"},
                   event := { tag := "salt/job/1/new",
                              data := { jobFun := none, minions := ["A"] },
                              stamp := 0 } })] }
      { tag := "salt/job/1/new",
        data := { jobFun := some "state.apply", minions := ["A"] }, stamp := 4 }
      (by decide) (by decide)
      { tag := "salt/job/1/new",
        data := { jobFun := some "state.apply", minions := [] }, stamp := 0 }
      (by decide)
      { minions := {"A"},
        event := { tag := "salt/job/1/new",
                   data := { jobFun := none, minions := ["A"] }, stamp := 0 } }
      (by decide)).1,
   (duplicate_start_overwrite_vs_ignore
      { watched_jids :=
          [("1", { tag := "salt/job/1/new",
                   data := { jobFun := some "state.apply", minions := [] }, stamp := 0 })] }
      { watched_jids :=
          [("1", { minions := {"A"},
                   event := { tag := "salt/job/1/new",
                              data := { jobFun := none, minions := ["A"] },
                              stamp := 0 } })] }
      { tag := "salt/job/1/new",
        data := { jobFun := some "state.apply", minions := ["A"] }, stamp := 4 }
      (by decide) (by decide)
      { tag := "salt/job/1/new",
        data := { jobFun := some "state.apply", minions := [] }, stamp := 0 }
      (by decide)
      { minions := {"A"},
        event := { tag := "salt/job/1/new",
                   data := { jobFun := none, minions := ["A"] }, stamp := 0 } }
      (by decide)).2.2⟩

/-- C5: completion of a tracked job by an expected responder whose grains in
the store are non-empty at that moment: the consolidated record is emitted in
that very step with those grains attached (not deferred), and the pending set
and grains store are untouched. -/
theorem completion_with_known_grains_emits_immediately
    (cache : JobAgg.JobCache) (salt_event : SaltEvent) (entry : JobAgg.JobEntry) (g : Attrs)
    (hN : fnmatchNew salt_event.tag = false)
    (hR : fnmatchRet salt_event.tag = true)
    (hJ : cache.watched_jids.get? (tagSeg2 salt_event.tag) = some entry)
    (hmem : tagLast salt_event.tag ∈ entry.minions)
    (hg : cache.grains.get? (tagLast salt_event.tag) = some g)
    (hg0 : g ≠ []) :
    JobAgg.process cache (.eventBus salt_event) =
      .ok ({ cache with
             watched_jids :=
               if entry.minions.erase (tagLast salt_event.tag) = ∅
               then cache.watched_jids.pop (tagSeg2 salt_event.tag)
               else cache.watched_jids.insert (tagSeg2 salt_event.tag)
                      { entry with minions := entry.minions.erase (tagLast salt_event.tag) } },
        [{ data := salt_event.data, start_time := entry.event.stamp,
           end_time := salt_event.stamp,
           duration := salt_event.stamp - entry.event.stamp,
           minion_id := tagLast salt_event.tag, grains := g }]) := by
  rw [JobAgg.process_ret_tracked cache salt_event entry hN hR hJ hmem]
  simp [hg, hg0]

theorem completion_with_known_grains_emits_immediately_witness :
    Dict.get? [("1", ({ minions := {"A", "B"},
                        event := { tag := "salt/job/1/new",
                                   data := { jobFun := none, minions := ["A", "B"] },
                                   stamp := 2 } } : JobAgg.JobEntry))] "1" =
      some { minions := {"A", "B"},
             event := { tag := "salt/job/1/new",
                        data := { jobFun := none, minions := ["A", "B"] }, stamp := 2 } } ∧
    JobAgg.process
        { watched_jids :=
            [("1", { minions := {"A", "B"},
                     event := { tag := "salt/job/1/new",
                                data := { jobFun := none, minions := ["A", "B"] },
                                stamp := 2 } })],
          grains := [("A", [("os", "linux")])] }
        (.eventBus { tag := "salt/job/1/ret/A",
                     data := { jobFun := none, minions := [] }, stamp := 6 }) =
      .ok ({ watched_jids :=
               if ({"A", "B"} : Finset String).erase "A" = ∅
               then Dict.pop
                 [("1", { minions := {"A", "B"},
                          event := { tag := "salt/job/1/new",
                                     data := { jobFun := none, minions := ["A", "B"] },
                                     stamp := 2 } })] "1"
               else Dict.insert
                 [("1", { minions := {"A", "B"},
                          event := { tag := "salt/job/1/new",
                                     data := { jobFun := none, minions := ["A", "B"] },
                                     stamp := 2 } })] "1"
                 { minions := ({"A", "B"} : Finset String).erase "A",
                   event := { tag := "salt/job/1/new",
                              data := { jobFun := none, minions := ["A", "B"] }, stamp := 2 } },
             grains := [("A", [("os", "linux")])] },
        [{ data := { jobFun := none, minions := [] }, start_time := 2, end_time := 6,
           duration := 4, minion_id := "A", grains := [("os", "linux")] }]) :=
  ⟨by decide,
   completion_with_known_grains_emits_immediately
     { watched_jids :=
         [("1", { minions := {"A", "B"},
                  event := { tag := "salt/job/1/new",
                             data := { jobFun := none, minions := ["A", "B"] },
                             stamp := 2 } })],
       grains := [("A", [("os", "linux")])] }
     { tag := "salt/job/1/ret/A", data := { jobFun := none, minions := [] }, stamp := 6 }
     { minions := {"A", "B"},
       event := { tag := "salt/job/1/new",
                  data := { jobFun := none, minions := ["A", "B"] }, stamp := 2 } }
     [("os", "linux")]
     (by decide) (by decide) (by decide) (by decide) (by decide) (by decide)⟩

/-- C10: when the grains store holds an entry for the completing responder
whose attribute map is empty, the record is deferred into waiting_for_grains
and the completion step emits nothing: the immediate-emission test is the
truthiness of the looked-up map, not the presence of the key. -/
theorem empty_grains_entry_defers
    (cache : JobAgg.JobCache) (salt_event : SaltEvent) (entry : JobAgg.JobEntry)
    (hN : fnmatchNew salt_event.tag = false)
    (hR : fnmatchRet salt_event.tag = true)
    (hJ : cache.watched_jids.get? (tagSeg2 salt_event.tag) = some entry)
    (hmem : tagLast salt_event.tag ∈ entry.minions)
    (hg : cache.grains.get? (tagLast salt_event.tag) = some []) :
    JobAgg.process cache (.eventBus salt_event) =
      .ok ({ cache with
             watched_jids :=
               if entry.minions.erase (tagLast salt_event.tag) = ∅
               then cache.watched_jids.pop (tagSeg2 salt_event.tag)
               else cache.watched_jids.insert (tagSeg2 salt_event.tag)
                      { entry with minions := entry.minions.erase (tagLast salt_event.tag) },
             waiting_for_grains := cache.waiting_for_grains ++
               [{ data := salt_event.data, start_time := entry.event.stamp,
                  end_time := salt_event.stamp,
                  duration := salt_event.stamp - entry.event.stamp,
                  minion_id := tagLast salt_event.tag, grains := [] }] }, []) := by
  rw [JobAgg.process_ret_tracked cache salt_event entry hN hR hJ hmem]
  simp [hg]

theorem empty_grains_entry_defers_witness :
    Dict.get? ([("A", [])] : Dict Attrs) "A" = some [] ∧
    JobAgg.process
        { watched_jids :=
            [("1", { minions := {"A", "B"},
                     event := { tag := "salt/job/1/new",
                                data := { jobFun := none, minions := ["A", "B"] },
                                stamp := 2 } })],
          grains := [("A", [])] }
        (.eventBus { tag := "salt/job/1/ret/A",
                     data := { jobFun := none, minions := [] }, stamp := 6 }) =
      .ok ({ watched_jids :=
               if ({"A", "B"} : Finset String).erase "A" = ∅
               then Dict.pop
                 [("1", { minions := {"A", "B"},
                          event := { tag := "salt/job/1/new",
                                     data := { jobFun := none, minions := ["A", "B"] },
                                     stamp := 2 } })] "1"
               else Dict.insert
                 [("1", { minions := {"A", "B"},
                          event := { tag := "salt/job/1/new",
                                     data := { jobFun := none, minions := ["A", "B"] },
                                     stamp := 2 } })] "1"
                 { minions := ({"A", "B"} : Finset String).erase "A",
                   event := { tag := "salt/job/1/new",
                              data := { jobFun := none, minions := ["A", "B"] }, stamp := 2 } },
             grains := [("A", [])],
             waiting_for_grains :=
               [{ data := { jobFun := none, minions := [] }, start_time := 2, end_time := 6,
                  duration := 4, minion_id := "A", grains := [] }] }, []) :=
  ⟨by decide,
   empty_grains_entry_defers
     { watched_jids :=
         [("1", { minions := {"A", "B"},
                  event := { tag := "salt/job/1/new",
                             data := { jobFun := none, minions := ["A", "B"] },
                             stamp := 2 } })],
       grains := [("A", [])] }
     { tag := "salt/job/1/ret/A", data := { jobFun := none, minions := [] }, stamp := 6 }
     { minions := {"A", "B"},
       event := { tag := "salt/job/1/new",
                  data := { jobFun := none, minions := ["A", "B"] }, stamp := 2 } }
     (by decide) (by decide) (by decide) (by decide) (by decide)⟩

/-- C9: in the simple variant, a watched jid is never removed by any event
(the registry only grows or is overwritten in place), and every completion
event for a watched jid yields exactly one consolidated record, built from
the stored start event and the completion event. -/
theorem simple_variant_registry_monotone_and_emits :
    (∀ (cache : StateAgg.StateCache) (event : CollectedEvent) (jid : String),
        (cache.watched_jids.get? jid).isSome →
        (((StateAgg.process cache event).1.watched_jids.get? jid).isSome)) ∧
    (∀ (cache : StateAgg.StateCache) (salt_event job_start_event : SaltEvent),
        fnmatchNew salt_event.tag = false →
        fnmatchRet salt_event.tag = true →
        cache.watched_jids.get? (tagSeg2 salt_event.tag) = some job_start_event →
        StateAgg.process cache (.eventBus salt_event) =
          (cache,
            [{ data := salt_event.data, start_time := job_start_event.stamp,
               end_time := salt_event.stamp,
               duration := salt_event.stamp - job_start_event.stamp,
               minion_id := tagLast salt_event.tag }])) := by
  constructor
  · intro cache event jid h
    cases event with
    | eventBus se =>
      cases hN : fnmatchNew se.tag with
      | false =>
        cases hR : fnmatchRet se.tag with
        | false =>
          rw [StateAgg.state_no_match cache se hN hR]
          exact h
        | true =>
          cases hget : cache.watched_jids.get? (tagSeg2 se.tag) with
          | none =>
            rw [StateAgg.state_ret_untracked cache se hN hR hget]
            exact h
          | some jse =>
            rw [StateAgg.state_ret_tracked cache se jse hN hR hget]
            exact h
      | true =>
        by_cases hfun : se.data.jobFun = some "state.apply"
        · rw [StateAgg.state_new_apply cache se hN hfun]
          exact Dict.get?_isSome_insert _ _ _ _ h
        · rw [StateAgg.state_new_not_apply cache se hN hfun]
          exact h
    | grainsCollected m g =>
      rw [StateAgg.state_grains_event cache m g]
      exact h
    | otherEvent =>
      rw [StateAgg.state_other_event cache]
      exact h
  · intro cache salt_event jse hN hR hJ
    exact StateAgg.state_ret_tracked cache salt_event jse hN hR hJ

theorem simple_variant_registry_monotone_and_emits_witness :
    (Dict.get? [("7", ({ tag := "salt/job/7/new",
                         data := { jobFun := some "state.apply", minions := [] },
                         stamp := 1 } : SaltEvent))] "7").isSome ∧
    ((StateAgg.process
        { watched_jids :=
            [("7", { tag := "salt/job/7/new",
                     data := { jobFun := some "state.apply", minions := [] },
                     stamp := 1 })] }
        .otherEvent).1.watched_jids.get? "7").isSome ∧
    StateAgg.process
        { watched_jids :=
            [("7", { tag := "salt/job/7/new",
                     data := { jobFun := some "state.apply", minions := [] },
                     stamp := 1 })] }
        (.eventBus { tag := "salt/job/7/ret/m1",
                     data := { jobFun := none, minions := [] }, stamp := 9 }) =
      ({ watched_jids :=
           [("7", { tag := "salt/job/7/new",
                    data := { jobFun := some "state.apply", minions := [] },
                    stamp := 1 })] },
        [{ data := { jobFun := none, minions := [] }, start_time := 1, end_time := 9,
           duration := 8, minion_id := "m1" }]) :=
  ⟨by decide,
   simple_variant_registry_monotone_and_emits.1
     { watched_jids :=
         [("7", { tag := "salt/job/7/new",
                  data := { jobFun := some "state.apply", minions := [] }, stamp := 1 })] }
     .otherEvent "7" (by decide),
   simple_variant_registry_monotone_and_emits.2
     { watched_jids :=
         [("7", { tag := "salt/job/7/new",
                  data := { jobFun := some "state.apply", minions := [] }, stamp := 1 })] }
     { tag := "salt/job/7/ret/m1", data := { jobFun := none, minions := [] }, stamp := 9 }
     { tag := "salt/job/7/new",
       data := { jobFun := some "state.apply", minions := [] }, stamp := 1 }
     (by decide) (by decide) (by decide)⟩

/-- C8: two completions by the same responder (here: for two different
tracked jobs, each expecting just that responder) processed before any
enrichment for it: both records are retained in waiting_for_grains (neither
displaces the other), and a single subsequent grains event for that responder
releases and emits both, each carrying that event's attribute map. -/
theorem same_responder_double_deferral_released_together
    (cache : JobAgg.JobCache) (se1 se2 : SaltEvent) (e1 e2 : JobAgg.JobEntry)
    (m : String) (g : Attrs)
    (hN1 : fnmatchNew se1.tag = false) (hR1 : fnmatchRet se1.tag = true)
    (hN2 : fnmatchNew se2.tag = false) (hR2 : fnmatchRet se2.tag = true)
    (hne : tagSeg2 se1.tag ≠ tagSeg2 se2.tag)
    (hm1 : tagLast se1.tag = m) (hm2 : tagLast se2.tag = m)
    (hJ1 : cache.watched_jids.get? (tagSeg2 se1.tag) = some e1)
    (hJ2 : cache.watched_jids.get? (tagSeg2 se2.tag) = some e2)
    (he1 : e1.minions = {m}) (he2 : e2.minions = {m})
    (hg : cache.grains.get? m = none)
    (hw : cache.waiting_for_grains = []) :
    JobAgg.process cache (.eventBus se1) =
      .ok ({ cache with
             watched_jids := cache.watched_jids.pop (tagSeg2 se1.tag),
             waiting_for_grains :=
               [{ data := se1.data, start_time := e1.event.stamp, end_time := se1.stamp,
                  duration := se1.stamp - e1.event.stamp, minion_id := m, grains := [] }] },
        []) ∧
    JobAgg.process
        { cache with
          watched_jids := cache.watched_jids.pop (tagSeg2 se1.tag),
          waiting_for_grains :=
            [{ data := se1.data, start_time := e1.event.stamp, end_time := se1.stamp,
               duration := se1.stamp - e1.event.stamp, minion_id := m, grains := [] }] }
        (.eventBus se2) =
      .ok ({ cache with
             watched_jids :=
               (cache.watched_jids.pop (tagSeg2 se1.tag)).pop (tagSeg2 se2.tag),
             waiting_for_grains :=
               [{ data := se1.data, start_time := e1.event.stamp, end_time := se1.stamp,
                  duration := se1.stamp - e1.event.stamp, minion_id := m, grains := [] },
                { data := se2.data, start_time := e2.event.stamp, end_time := se2.stamp,
                  duration := se2.stamp - e2.event.stamp, minion_id := m, grains := [] }] },
        []) ∧
    JobAgg.process
        { cache with
          watched_jids :=
            (cache.watched_jids.pop (tagSeg2 se1.tag)).pop (tagSeg2 se2.tag),
          waiting_for_grains :=
            [{ data := se1.data, start_time := e1.event.stamp, end_time := se1.stamp,
               duration := se1.stamp - e1.event.stamp, minion_id := m, grains := [] },
             { data := se2.data, start_time := e2.event.stamp, end_time := se2.stamp,
               duration := se2.stamp - e2.event.stamp, minion_id := m, grains := [] }] }
        (.grainsCollected m g) =
      .ok ({ cache with
             watched_jids :=
               (cache.watched_jids.pop (tagSeg2 se1.tag)).pop (tagSeg2 se2.tag),
             grains := cache.grains.insert m g,
             waiting_for_grains := [] },
        [{ data := se1.data, start_time := e1.event.stamp, end_time := se1.stamp,
           duration := se1.stamp - e1.event.stamp, minion_id := m, grains := g },
         { data := se2.data, start_time := e2.event.stamp, end_time := se2.stamp,
           duration := se2.stamp - e2.event.stamp, minion_id := m, grains := g }]) := by
  have hmem1 : tagLast se1.tag ∈ e1.minions := by
    rw [hm1, he1]
    exact Finset.mem_singleton_self m
  have hmem2 : tagLast se2.tag ∈ e2.minions := by
    rw [hm2, he2]
    exact Finset.mem_singleton_self m
  refine ⟨?_, ?_, ?_⟩
  · rw [JobAgg.process_ret_tracked cache se1 e1 hN1 hR1 hJ1 hmem1]
    simp [he1, hm1, hg, hw, Finset.erase_singleton]
  · rw [JobAgg.process_ret_tracked _ se2 e2 hN2 hR2
      (by simpa using (Dict.get?_pop_ne cache.watched_jids (tagSeg2 se1.tag)
        (tagSeg2 se2.tag) (Ne.symm hne)).trans hJ2) hmem2]
    simp [he2, hm2, hg, Finset.erase_singleton]
  · rw [JobAgg.process_grains]
    simp

theorem same_responder_double_deferral_released_together_witness :
    tagSeg2 "salt/job/1/ret/A" ≠ tagSeg2 "salt/job/2/ret/A" ∧
    JobAgg.process
        { watched_jids :=
            [("1", { minions := {"A"},
                     event := { tag := "salt/job/1/new",
                                data := { jobFun := none, minions := ["A"] }, stamp := 0 } }),
             ("2", { minions := {"A"},
                     event := { tag := "salt/job/2/new",
                                data := { jobFun := none, minions := ["A"] }, stamp := 1 } })] }
        (.eventBus { tag := "salt/job/1/ret/A",
                     data := { jobFun := none, minions := [] }, stamp := 5 }) =
      .ok ({ watched_jids :=
               [("2", { minions := {"A"},
                        event := { tag := "salt/job/2/new",
                                   data := { jobFun := none, minions := ["A"] },
                                   stamp := 1 } })],
             waiting_for_grains :=
               [{ data := { jobFun := none, minions := [] }, start_time := 0, end_time := 5,
                  duration := 5, minion_id := "A", grains := [] }] }, []) ∧
    JobAgg.process
        { watched_jids :=
            [("2", { minions := {"A"},
                     event := { tag := "salt/job/2/new",
                                data := { jobFun := none, minions := ["A"] }, stamp := 1 } })],
          waiting_for_grains :=
            [{ data := { jobFun := none, minions := [] }, start_time := 0, end_time := 5,
               duration := 5, minion_id := "A", grains := [] }] }
        (.eventBus { tag := "salt/job/2/ret/A",
                     data := { jobFun := none, minions := [] }, stamp := 6 }) =
      .ok ({ watched_jids := [],
             waiting_for_grains :=
               [{ data := { jobFun := none, minions := [] }, start_time := 0, end_time := 5,
                  duration := 5, minion_id := "A", grains := [] },
                { data := { jobFun := none, minions := [] }, start_time := 1, end_time := 6,
                  duration := 5, minion_id := "A", grains := [] }] }, []) ∧
    JobAgg.process
        { watched_jids := [],
          waiting_for_grains :=
            [{ data := { jobFun := none, minions := [] }, start_time := 0, end_time := 5,
               duration := 5, minion_id := "A", grains := [] },
             { data := { jobFun := none, minions := [] }, start_time := 1, end_time := 6,
               duration := 5, minion_id := "A", grains := [] }] }
        (.grainsCollected "A" [("os", "linux")]) =
      .ok ({ watched_jids := [],
             grains := [("A", [("os", "linux")])],
             waiting_for_grains := [] },
        [{ data := { jobFun := none, minions := [] }, start_time := 0, end_time := 5,
           duration := 5, minion_id := "A", grains := [("os", "linux")] },
         { data := { jobFun := none, minions := [] }, start_time := 1, end_time := 6,
           duration := 5, minion_id := "A", grains := [("os", "linux")] }]) := by
  have h := same_responder_double_deferral_released_together
    { watched_jids :=
        [("1", { minions := {"A"},
                 event := { tag := "salt/job/1/new",
                            data := { jobFun := none, minions := ["A"] }, stamp := 0 } }),
         ("2", { minions := {"A"},
                 event := { tag := "salt/job/2/new",
                            data := { jobFun := none, minions := ["A"] }, stamp := 1 } })] }
    { tag := "salt/job/1/ret/A", data := { jobFun := none, minions := [] }, stamp := 5 }
    { tag := "salt/job/2/ret/A", data := { jobFun := none, minions := [] }, stamp := 6 }
    { minions := {"A"},
      event := { tag := "salt/job/1/new",
                 data := { jobFun := none, minions := ["A"] }, stamp := 0 } }
    { minions := {"A"},
      event := { tag := "salt/job/2/new",
                 data := { jobFun := none, minions := ["A"] }, stamp := 1 } }
    "A" [("os", "linux")]
    (by decide) (by decide) (by decide) (by decide) (by decide) (by decide) (by decide)
    (by decide) (by decide) (by decide) (by decide) (by decide) rfl
  exact ⟨by decide, h.1, h.2.1, h.2.2⟩

/-- C2 counterexample: in the code, JobCompleted(1,A) with no prior
enrichment for A does NOT emit a record for A in that step — the grains
lookup is empty, so the record is deferred into waiting_for_grains and the
completion step yields zero records (the per-step emission list of the
two-event run is [[], []]). The claim asserts a record for A with empty
attributes is emitted in that step. -/
theorem scenario_completion_step_emits_nothing :
    JobAgg.runList {}
      [.eventBus { tag := "salt/job/1/new",
                   data := { jobFun := none, minions := ["A", "B"] }, stamp := 0 },
       .eventBus { tag := "salt/job/1/ret/A",
                   data := { jobFun := none, minions := [] }, stamp := 5 }] =
      .ok ({ watched_jids :=
               [("1", { minions := {"B"},
                        event := { tag := "salt/job/1/new",
                                   data := { jobFun := none, minions := ["A", "B"] },
                                   stamp := 0 } })],
             waiting_for_grains :=
               [{ data := { jobFun := none, minions := [] }, start_time := 0, end_time := 5,
                  duration := 5, minion_id := "A", grains := [] }] },
        [[], []]) := by
  decide

/-- C2 amended: in the run JobStarted(1, A and B); JobCompleted(1,A);
EnrichmentUpdated(A, os=linux); EnrichmentUpdated(B, os=bsd);
JobCompleted(1,B), the completion of A emits nothing (its record is
deferred), the enrichment event for A releases that record with
os=linux attached, the enrichment event for B emits nothing, the
completion of B emits its record immediately with os=bsd, and job 1 is
removed from the registry at the end. -/
theorem scenario_enrichment_aware_run :
    JobAgg.runList {}
      [.eventBus { tag := "salt/job/1/new",
                   data := { jobFun := none, minions := ["A", "B"] }, stamp := 0 },
       .eventBus { tag := "salt/job/1/ret/A",
                   data := { jobFun := none, minions := [] }, stamp := 5 },
       .grainsCollected "A" [("os", "linux")],
       .grainsCollected "B" [("os", "bsd")],
       .eventBus { tag := "salt/job/1/ret/B",
                   data := { jobFun := none, minions := [] }, stamp := 9 }] =
      .ok ({ watched_jids := [],
             grains := [("A", [("os", "linux")]), ("B", [("os", "bsd")])],
             waiting_for_grains := [] },
        [[], [],
         [{ data := { jobFun := none, minions := [] }, start_time := 0, end_time := 5,
            duration := 5, minion_id := "A", grains := [("os", "linux")] }],
         [],
         [{ data := { jobFun := none, minions := [] }, start_time := 0, end_time := 9,
            duration := 9, minion_id := "B", grains := [("os", "bsd")] }]]) := by
  decide

/-- C4 counterexample: a JobStarted event whose payload minions list is empty
inserts a registry entry whose expected-responder set is empty; the job id
then sits in the registry with an empty expected set, violating the
"only while its expected-responder set is non-empty" half of the invariant
as claimed. -/
theorem empty_responder_start_breaks_registry_invariant :
    JobAgg.process {}
      (.eventBus { tag := "salt/job/1/new",
                   data := { jobFun := none, minions := [] }, stamp := 0 }) =
      .ok ({ watched_jids :=
               [("1", { minions := ∅,
                        event := { tag := "salt/job/1/new",
                                   data := { jobFun := none, minions := [] },
                                   stamp := 0 } })] }, []) ∧
    ¬ JobAgg.RegistryInv
        { watched_jids :=
            [("1", { minions := ∅,
                     event := { tag := "salt/job/1/new",
                                data := { jobFun := none, minions := [] },
                                stamp := 0 } })] } := by
  constructor
  · decide
  · intro h
    exact h.2
      ("1", { minions := ∅,
              event := { tag := "salt/job/1/new",
                         data := { jobFun := none, minions := [] }, stamp := 0 } })
      (List.mem_singleton_self _) rfl

/-- C4 (amended): provided every matched job start carries a non-empty
responder set, every successful step preserves the registry invariant (each
job id at most once, each tracked entry with a non-empty expected set); and
for a job tracked with expected set R, completions by any R.card - 1 distinct
expected responders leave the job tracked, while completions by all R.card of
them remove it exactly on the last one. The claim fails only for a job
started with an empty responder set (see the counterexample), which is why
the non-emptiness proviso is added. -/
theorem registry_completion_counting_and_invariant :
    (∀ (cache : JobAgg.JobCache) (event : CollectedEvent),
        JobAgg.RegistryInv cache →
        (∀ se, event = .eventBus se → fnmatchNew se.tag = true →
          se.data.minions ≠ []) →
        ∀ (cache' : JobAgg.JobCache) (recs : List JobAgg.StateAggregateCollectedEvent),
          JobAgg.process cache event = .ok (cache', recs) →
          JobAgg.RegistryInv cache') ∧
    (∀ (cache : JobAgg.JobCache) (jid : String) (entry : JobAgg.JobEntry)
        (ses : List SaltEvent),
        cache.watched_jids.keys.Nodup →
        cache.watched_jids.get? jid = some entry →
        (∀ se ∈ ses, fnmatchNew se.tag = false ∧ fnmatchRet se.tag = true ∧
          tagSeg2 se.tag = jid) →
        (ses.map (fun se => tagLast se.tag)).Nodup →
        (∀ se ∈ ses, tagLast se.tag ∈ entry.minions) →
        ((ses.length + 1 = entry.minions.card →
          ∃ (c' : JobAgg.JobCache) (recss : List (List JobAgg.StateAggregateCollectedEvent)),
            JobAgg.runList cache (ses.map .eventBus) = .ok (c', recss) ∧
            (c'.watched_jids.get? jid).isSome) ∧
         (ses.length = entry.minions.card → entry.minions ≠ ∅ →
          ∃ (c' : JobAgg.JobCache) (recss : List (List JobAgg.StateAggregateCollectedEvent)),
            JobAgg.runList cache (ses.map .eventBus) = .ok (c', recss) ∧
            c'.watched_jids.get? jid = none))) := by
  constructor
  · exact fun cache event hInv hstart cache' recs h =>
      JobAgg.registryInv_step cache event hInv hstart cache' recs h
  · intro cache jid entry ses hnd hJ hcond hnd2 hsub
    have hsubset : (ses.map (fun se => tagLast se.tag)).toFinset ⊆ entry.minions := by
      intro x hx
      simp only [List.mem_toFinset, List.mem_map] at hx
      obtain ⟨se, hse, rfl⟩ := hx
      exact hsub se hse
    have hcard : ((ses.map (fun se => tagLast se.tag)).toFinset).card = ses.length := by
      rw [List.toFinset_card_of_nodup hnd2, List.length_map]
    constructor
    · intro hlen
      have hne : entry.minions ≠ ∅ := by
        intro hc
        rw [hc] at hlen
        simp at hlen
      obtain ⟨c', recss, hrun, _hnd', hif⟩ :=
        JobAgg.watched_after_ret_list ses cache jid entry hnd hJ hne hcond hnd2 hsub
      refine ⟨c', recss, hrun, ?_⟩
      have hne2 : entry.minions \ (ses.map (fun se => tagLast se.tag)).toFinset ≠ ∅ := by
        intro hc
        have hcs := Finset.card_sdiff hsubset
        rw [hc, hcard, Finset.card_empty] at hcs
        omega
      rw [if_neg hne2] at hif
      rw [hif]
      rfl
    · intro hlen hne
      obtain ⟨c', recss, hrun, _hnd', hif⟩ :=
        JobAgg.watched_after_ret_list ses cache jid entry hnd hJ hne hcond hnd2 hsub
      have heq : (ses.map (fun se => tagLast se.tag)).toFinset = entry.minions :=
        Finset.eq_of_subset_of_card_le hsubset (by rw [hcard, hlen])
      have hempty : entry.minions \ (ses.map (fun se => tagLast se.tag)).toFinset = ∅ := by
        rw [heq]
        exact Finset.sdiff_self entry.minions
      rw [if_pos hempty] at hif
      exact ⟨c', recss, hrun, hif⟩

theorem registry_completion_counting_and_invariant_witness :
    JobAgg.RegistryInv
      { watched_jids :=
          [("1", { minions := {"A", "B"},
                   event := { tag := "salt/job/1/new",
                              data := { jobFun := none, minions := ["A", "B"] },
                              stamp := 0 } })] } ∧
    (∃ (c' : JobAgg.JobCache) (recss : List (List JobAgg.StateAggregateCollectedEvent)),
      JobAgg.runList
          { watched_jids :=
              [("1", { minions := {"A", "B"},
                       event := { tag := "salt/job/1/new",
                                  data := { jobFun := none, minions := ["A", "B"] },
                                  stamp := 0 } })] }
          (([{ tag := "salt/job/1/ret/A",
               data := { jobFun := none, minions := [] }, stamp := 3 }] :
            List SaltEvent).map .eventBus) = .ok (c', recss) ∧
      (c'.watched_jids.get? "1").isSome) ∧
    (∃ (c' : JobAgg.JobCache) (recss : List (List JobAgg.StateAggregateCollectedEvent)),
      JobAgg.runList
          { watched_jids :=
              [("1", { minions := {"A", "B"},
                       event := { tag := "salt/job/1/new",
                                  data := { jobFun := none, minions := ["A", "B"] },
                                  stamp := 0 } })] }
          (([{ tag := "salt/job/1/ret/A",
               data := { jobFun := none, minions := [] }, stamp := 3 },
             { tag := "salt/job/1/ret/B",
               data := { jobFun := none, minions := [] }, stamp := 4 }] :
            List SaltEvent).map .eventBus) = .ok (c', recss) ∧
      c'.watched_jids.get? "1" = none) := by
  refine ⟨?_, ?_, ?_⟩
  · exact registry_completion_counting_and_invariant.1 {}
      (.eventBus { tag := "salt/job/1/new",
                   data := { jobFun := none, minions := ["A", "B"] }, stamp := 0 })
      ⟨List.nodup_nil, fun p hp => absurd hp (List.not_mem_nil p)⟩
      (fun se h _hN => by cases h; decide)
      { watched_jids :=
          [("1", { minions := {"A", "B"},
                   event := { tag := "salt/job/1/new",
                              data := { jobFun := none, minions := ["A", "B"] },
                              stamp := 0 } })] }
      [] (by decide)
  · exact (registry_completion_counting_and_invariant.2
      { watched_jids :=
          [("1", { minions := {"A", "B"},
                   event := { tag := "salt/job/1/new",
                              data := { jobFun := none, minions := ["A", "B"] },
                              stamp := 0 } })] }
      "1"
      { minions := {"A", "B"},
        event := { tag := "salt/job/1/new",
                   data := { jobFun := none, minions := ["A", "B"] }, stamp := 0 } }
      [{ tag := "salt/job/1/ret/A", data := { jobFun := none, minions := [] }, stamp := 3 }]
      (by decide) (by decide) (by decide) (by decide) (by decide)).1 (by decide)
  · exact (registry_completion_counting_and_invariant.2
      { watched_jids :=
          [("1", { minions := {"A", "B"},
                   event := { tag := "salt/job/1/new",
                              data := { jobFun := none, minions := ["A", "B"] },
                              stamp := 0 } })] }
      "1"
      { minions := {"A", "B"},
        event := { tag := "salt/job/1/new",
                   data := { jobFun := none, minions := ["A", "B"] }, stamp := 0 } }
      [{ tag := "salt/job/1/ret/A", data := { jobFun := none, minions := [] }, stamp := 3 },
       { tag := "salt/job/1/ret/B", data := { jobFun := none, minions := [] }, stamp := 4 }]
      (by decide) (by decide) (by decide) (by decide) (by decide)).2 (by decide) (by decide)

end SaltAnalytics
